import Mathlib

/-!
Verification of the DevTimeTracker core: the timer state machine
(`tracker.py`, class `TimeTracker`) and its persistence layer
(`database.py`).  Timestamps are modelled as integer microseconds since
the epoch (the source stores `datetime.utcnow().isoformat()` strings,
whose lexicographic SQLite comparison agrees with numeric comparison of
the underlying microsecond instants); the SQLite tables are modelled as
lists, with `AUTOINCREMENT` modelled by an explicit next-id counter.
-/

/-- Microseconds in one day (`86400 * 10^6`). -/
def usecPerDay : Int := 86400000000

/-- Microseconds in one second. -/
def usecPerSec : Int := 1000000

/-- Python's `int((end - start).total_seconds())`: division of a
microsecond difference by `10^6`, truncating toward zero. -/
def truncSecs (d : Int) : Int :=
  if 0 ≤ d then d / usecPerSec else -((-d) / usecPerSec)

/-- The instant a bare `"YYYY-MM-DD"` date string denotes as a lower
bound: midnight of day `d` (lexicographic comparison of the bare date
against ISO timestamps behaves like this numeric bound). -/
def dayStart (d : Int) : Int := d * usecPerDay

/-- The instant `date_to + "T23:59:59"` denotes (database.py line 147):
second 86399 of day `d`, with zero microseconds. -/
def dayEndBound (d : Int) : Int := d * usecPerDay + 86399 * usecPerSec

/-- A row of the `projects` table (database.py schema). -/
structure Project where
  id : Nat
  name : String
  color : String
  archived : Bool
deriving Repr, DecidableEq

/-- A row of the `sessions` table (database.py schema). -/
structure Session where
  id : Nat
  project_id : Nat
  start_time : Int
  end_time : Option Int
  duration : Int
  note : Option String
deriving Repr, DecidableEq

/-- The database: `projects`, `sessions` and the `app_state` key/value
table (values there are decimal ids, modelled as `Nat`), plus the
`AUTOINCREMENT` counter for session ids. -/
structure Store where
  projects : List Project
  sessions : List Session
  app_state : List (String × Nat)
  next_session_id : Nat
deriving Repr, DecidableEq

/-- `set_state` (database.py): `INSERT OR REPLACE` into `app_state`. -/
def set_state (s : Store) (key : String) (value : Nat) : Store :=
  { s with app_state := (key, value) :: s.app_state.filter (fun kv => kv.1 != key) }

/-- `get_state` (database.py): look the key up, `None` if absent. -/
def get_state (s : Store) (key : String) : Option Nat :=
  List.lookup key s.app_state

/-- `clear_state` (database.py): `DELETE FROM app_state WHERE key = ?`. -/
def clear_state (s : Store) (key : String) : Store :=
  { s with app_state := s.app_state.filter (fun kv => kv.1 != key) }

/-- `delete_project` (database.py lines 77-79): soft delete, sets
`archived = 1`. -/
def delete_project (s : Store) (project_id : Nat) : Store :=
  { s with projects := s.projects.map (fun p =>
      if p.id == project_id then { p with archived := true } else p) }

/-- `start_session` (database.py lines 89-97): insert an open session
row with `start = now`, then record both AppState pointer keys; returns
the new session id. -/
def start_session (s : Store) (project_id : Nat) (now : Int) : Store × Nat :=
  let sid := s.next_session_id
  let s1 : Store := { s with
    sessions := s.sessions ++
      [{ id := sid, project_id := project_id, start_time := now,
         end_time := none, duration := 0, note := none }],
    next_session_id := sid + 1 }
  let s2 := set_state s1 "active_session_id" sid
  let s3 := set_state s2 "active_project_id" project_id
  (s3, sid)

/-- `stop_session` (database.py lines 100-116): fetch the row's start
time by id (no check that the session is still open!); if absent return
0 with no mutation; otherwise write `end_time`/`duration` and clear both
AppState keys, returning the computed duration. -/
def stop_session (s : Store) (session_id : Nat) (now : Int) : Store × Int :=
  match s.sessions.find? (fun sess => sess.id == session_id) with
  | none => (s, 0)
  | some row =>
    let duration := truncSecs (now - row.start_time)
    let s1 : Store := { s with sessions := s.sessions.map (fun sess =>
        if sess.id == session_id then
          { sess with end_time := some now, duration := duration }
        else sess) }
    let s2 := clear_state s1 "active_session_id"
    let s3 := clear_state s2 "active_project_id"
    (s3, duration)

/-- `get_active_session` (database.py lines 119-129): resolve the
AppState pointer to a session row that is still open (`end_time IS
NULL`) and joins to an existing project row. -/
def get_active_session (s : Store) : Option Session :=
  match get_state s "active_session_id" with
  | none => none
  | some sid =>
    match s.sessions.find? (fun sess => sess.id == sid && sess.end_time.isNone) with
    | none => none
    | some row =>
      if s.projects.any (fun p => p.id == row.project_id) then some row else none

/-- The WHERE clause of `get_sessions` (database.py lines 132-149):
closed sessions joined to a project, optionally filtered by project id
(Python truthiness: a 0 project id disables the filter) and by the
start-time bounds that the bare `date_from` string and the
`date_to + "T23:59:59"` string denote. -/
def sessionMatches (s : Store) (project_id : Option Nat)
    (date_from date_to : Option Int) (sess : Session) : Bool :=
  sess.end_time.isSome
  && s.projects.any (fun p => p.id == sess.project_id)
  && (match project_id with
      | some pid => pid == 0 || sess.project_id == pid
      | none => true)
  && (match date_from with
      | some d => decide (dayStart d ≤ sess.start_time)
      | none => true)
  && (match date_to with
      | some d => decide (sess.start_time ≤ dayEndBound d)
      | none => true)

/-- The order `ORDER BY s.start_time DESC` sorts by: later starts first. -/
def startDescOrder (a b : Session) : Prop :=
  b.start_time ≤ a.start_time

instance : DecidableRel startDescOrder :=
  fun a b => inferInstanceAs (Decidable (b.start_time ≤ a.start_time))

instance : IsTotal Session startDescOrder :=
  ⟨fun a b => le_total b.start_time a.start_time⟩

instance : IsTrans Session startDescOrder :=
  ⟨fun _ _ _ h1 h2 => le_trans h2 h1⟩

/-- `get_sessions` (database.py lines 132-149): the filtered rows,
ordered by start time descending. -/
def get_sessions (s : Store) (project_id : Option Nat)
    (date_from date_to : Option Int) : List Session :=
  List.insertionSort startDescOrder
    (s.sessions.filter (sessionMatches s project_id date_from date_to))

/-- `get_project_total_seconds` (database.py lines 154-159): sum of
`duration` over the project's closed sessions. -/
def get_project_total_seconds (s : Store) (project_id : Nat) : Int :=
  ((s.sessions.filter (fun sess =>
      sess.project_id == project_id && sess.end_time.isSome)).map Session.duration).sum

/-- The in-memory state of class `TimeTracker` (tracker.py): the
connection's store plus `_active_session_id`, `_active_project_id`,
`_session_start`, `_recovered`. -/
structure TimeTracker where
  conn : Store
  active_session_id : Option Nat := none
  active_project_id : Option Nat := none
  session_start : Option Int := none
  recovered : Bool := false
deriving Repr, DecidableEq

namespace TimeTracker

/-- `_restore_active_session` (tracker.py lines 41-47). -/
def restore_active_session (t : TimeTracker) : TimeTracker :=
  match get_active_session t.conn with
  | some sess =>
    { t with active_session_id := some sess.id,
             active_project_id := some sess.project_id,
             session_start := some sess.start_time,
             recovered := true }
  | none => t

/-- `TimeTracker.__init__` against an existing store: fields start at
`None`/`False`, then `_restore_active_session` runs. -/
def init (s : Store) : TimeTracker :=
  restore_active_session { conn := s }

/-- `acknowledge_recovery` (tracker.py lines 53-54). -/
def acknowledge_recovery (t : TimeTracker) : TimeTracker :=
  { t with recovered := false }

/-- `is_running` property (tracker.py lines 77-79). -/
def is_running (t : TimeTracker) : Bool :=
  t.active_session_id.isSome

/-- `elapsed_seconds` (tracker.py lines 85-88): 0 with no session start,
otherwise `int((utcnow() - start).total_seconds())` — truncation toward
zero, with no clamping of negative values. -/
def elapsed_seconds (t : TimeTracker) (now : Int) : Int :=
  match t.session_start with
  | none => 0
  | some st => truncSecs (now - st)

/-- `stop_timer` (tracker.py lines 97-104). -/
def stop_timer (t : TimeTracker) (now : Int) : TimeTracker × Int :=
  match t.active_session_id with
  | none => (t, 0)
  | some sid =>
    let p := stop_session t.conn sid now
    ({ t with conn := p.1, active_session_id := none,
              active_project_id := none, session_start := none }, p.2)

/-- `start_timer` (tracker.py lines 90-95): implicit stop when already
running, then `start_session` and the in-memory snapshot update. -/
def start_timer (t : TimeTracker) (project_id : Nat) (now : Int) : TimeTracker :=
  let t1 := if is_running t then (stop_timer t now).1 else t
  let p := start_session t1.conn project_id now
  { t1 with conn := p.1, active_session_id := some p.2,
            active_project_id := some project_id, session_start := some now }

/-- `discard_timer` (tracker.py lines 106-118): close the active row
with `duration = 0`, clear both AppState keys, drop the in-memory state;
no-op when not running. -/
def discard_timer (t : TimeTracker) (now : Int) : TimeTracker :=
  match t.active_session_id with
  | none => t
  | some sid =>
    let s1 : Store := { t.conn with sessions := t.conn.sessions.map (fun sess =>
        if sess.id == sid then { sess with end_time := some now, duration := 0 }
        else sess) }
    let s2 := clear_state s1 "active_session_id"
    let s3 := clear_state s2 "active_project_id"
    { t with conn := s3, active_session_id := none,
             active_project_id := none, session_start := none }

/-- `remove_project` (tracker.py lines 70-73): `ValueError` when the
target is the active project, else archive via `delete_project`. -/
def remove_project (t : TimeTracker) (project_id : Nat) : Except String TimeTracker :=
  if t.active_project_id = some project_id then
    Except.error "Cannot delete a project with a running timer."
  else
    Except.ok { t with conn := delete_project t.conn project_id }

/-- `get_project_total` (tracker.py lines 122-126). -/
def get_project_total (t : TimeTracker) (project_id : Nat) (now : Int) : Int :=
  let total := get_project_total_seconds t.conn project_id
  if is_running t && t.active_project_id == some project_id then
    total + elapsed_seconds t now
  else total

end TimeTracker

/-- One externally invoked timer transition, paired with the wall-clock
instant at which it runs. -/
inductive Op where
  | start (project_id : Nat) (now : Int)
  | stop (now : Int)
  | discard (now : Int)
deriving Repr, DecidableEq

/-- Apply one transition to the tracker. -/
def applyOp (t : TimeTracker) : Op → TimeTracker
  | .start pid now => t.start_timer pid now
  | .stop now => (t.stop_timer now).1
  | .discard now => t.discard_timer now

/-- Run a sequence of transitions. -/
def runOps (t : TimeTracker) : List Op → TimeTracker
  | [] => t
  | op :: ops => runOps (applyOp t op) ops

/-- The open (in-progress) session rows of a store. -/
def openSessions (s : Store) : List Session :=
  s.sessions.filter (fun sess => sess.end_time.isNone)

/-- The ids of all session rows. -/
def sessionIds (s : Store) : List Nat :=
  s.sessions.map Session.id

/-- Well-formedness that SQLite guarantees for the `sessions` table:
`AUTOINCREMENT` ids are distinct and below the next-id counter. -/
def StoreWF (s : Store) : Prop :=
  (sessionIds s).Nodup ∧ ∀ sess ∈ s.sessions, sess.id < s.next_session_id

instance (s : Store) : Decidable (StoreWF s) := by
  unfold StoreWF; exact inferInstance

/-- Inductive invariant for the single-active-session property: the
store is well-formed and every open row is the tracker's active one. -/
def OpenInv (t : TimeTracker) : Prop :=
  StoreWF t.conn ∧
  ∀ sess ∈ t.conn.sessions, sess.end_time = none → t.active_session_id = some sess.id

instance (t : TimeTracker) : Decidable (OpenInv t) := by
  unfold OpenInv; exact inferInstance

/-- Inductive invariant tying the in-memory snapshot to the durable
AppState pointer: the two pointer keys mirror the in-memory ids, and a
set pointer designates an open session row of the active project. -/
def Coherent (t : TimeTracker) : Prop :=
  OpenInv t ∧
  get_state t.conn "active_session_id" = t.active_session_id ∧
  get_state t.conn "active_project_id" = t.active_project_id ∧
  (t.active_session_id = none → t.active_project_id = none) ∧
  ∀ sid ∈ t.active_session_id,
    ∃ sess ∈ t.conn.sessions, sess.id = sid ∧ sess.end_time = none ∧
      t.active_project_id = some sess.project_id

instance (t : TimeTracker) : Decidable (Coherent t) := by
  unfold Coherent; exact inferInstance

/-- The store-level condition a store reachable by the tracker
satisfies: open rows are designated by the pointer, the two pointer keys
are set together, and the pointer designates an open row of an existing
project. -/
def StoreCoherent (s : Store) : Prop :=
  StoreWF s ∧
  (∀ sess ∈ s.sessions, sess.end_time = none →
    get_state s "active_session_id" = some sess.id) ∧
  (get_state s "active_session_id" = none →
    get_state s "active_project_id" = none) ∧
  ∀ sid ∈ get_state s "active_session_id",
    ∃ sess ∈ s.sessions, sess.id = sid ∧ sess.end_time = none ∧
      get_state s "active_project_id" = some sess.project_id ∧
      ∃ p ∈ s.projects, p.id = sess.project_id

instance (s : Store) : Decidable (StoreCoherent s) := by
  unfold StoreCoherent; exact inferInstance

/-! Concrete stores and trackers used by counterexamples and witnesses. -/

/-- A sample project row. -/
def pWriting : Project :=
  { id := 1, name := "Writing", color := "#4A9EFF", archived := false }

/-- A second sample project row. -/
def pReading : Project :=
  { id := 2, name := "Reading", color := "#FF0000", archived := false }

/-- A session that is already closed (1 second long, starting at the
epoch). -/
def sessClosed1 : Session :=
  { id := 1, project_id := 1, start_time := 0, end_time := some usecPerSec,
    duration := 1, note := none }

/-- A store holding only the closed session `sessClosed1`. -/
def storeClosed : Store :=
  { projects := [pWriting], sessions := [sessClosed1], app_state := [],
    next_session_id := 2 }

/-- A tracker whose running session started at instant `10^7`
(10 seconds after the epoch). -/
def trackerAt10 : TimeTracker :=
  { conn := { projects := [pWriting],
              sessions := [{ id := 1, project_id := 1, start_time := 10000000,
                             end_time := none, duration := 0, note := none }],
              app_state := [("active_session_id", 1), ("active_project_id", 1)],
              next_session_id := 2 },
    active_session_id := some 1, active_project_id := some 1,
    session_start := some 10000000, recovered := false }

/-- A closed session starting half a second before midnight: instant
`86399.5 * 10^6`, i.e. 23:59:59.500000 of day 0. -/
def sessLate : Session :=
  { id := 1, project_id := 1, start_time := 86399 * usecPerSec + 500000,
    end_time := some (usecPerDay + 5), duration := 1, note := none }

/-- A store holding only the closed session `sessLate`. -/
def storeLate : Store :=
  { projects := [pWriting], sessions := [sessLate], app_state := [],
    next_session_id := 2 }

/-- A store with an open session (id 3, project 7) designated by the
AppState pointer, as left behind by an unclean shutdown. -/
def storeCrashed : Store :=
  { projects := [{ id := 7, name := "P", color := "#FFFFFF", archived := false }],
    sessions := [{ id := 3, project_id := 7, start_time := 42,
                   end_time := none, duration := 0, note := none }],
    app_state := [("active_session_id", 3), ("active_project_id", 7)],
    next_session_id := 4 }

/-- A store with one project and no sessions. -/
def storeFresh : Store :=
  { projects := [pWriting], sessions := [], app_state := [], next_session_id := 1 }

/-- The spec's worked example: project "Writing" with two closed
sessions of 1800 s and 3600 s, and a running session that started at
instant `10^10` (tracked in memory and in the store). -/
def trackerWriting : TimeTracker :=
  { conn := { projects := [pWriting, pReading],
              sessions :=
                [{ id := 1, project_id := 1, start_time := 0,
                   end_time := some (1800 * usecPerSec), duration := 1800, note := none },
                 { id := 2, project_id := 1, start_time := 2000 * usecPerSec,
                   end_time := some (5600 * usecPerSec), duration := 3600, note := none },
                 { id := 3, project_id := 1, start_time := 10000000000,
                   end_time := none, duration := 0, note := none }],
              app_state := [("active_session_id", 3), ("active_project_id", 1)],
              next_session_id := 4 },
    active_session_id := some 3, active_project_id := some 1,
    session_start := some 10000000000, recovered := false }

/-! ### Helper lemmas -/

theorem set_state_sessions (s : Store) (k : String) (v : Nat) :
    (set_state s k v).sessions = s.sessions := rfl

theorem clear_state_sessions (s : Store) (k : String) :
    (clear_state s k).sessions = s.sessions := rfl

theorem set_state_projects (s : Store) (k : String) (v : Nat) :
    (set_state s k v).projects = s.projects := rfl

theorem clear_state_projects (s : Store) (k : String) :
    (clear_state s k).projects = s.projects := rfl

theorem set_state_next (s : Store) (k : String) (v : Nat) :
    (set_state s k v).next_session_id = s.next_session_id := rfl

theorem clear_state_next (s : Store) (k : String) :
    (clear_state s k).next_session_id = s.next_session_id := rfl

theorem lookup_filter_ne_key (k k' : String) (h : k' ≠ k) :
    ∀ l : List (String × Nat),
      List.lookup k' (l.filter (fun kv => kv.1 != k)) = List.lookup k' l := by
  intro l
  induction l with
  | nil => rfl
  | cons kv l ih =>
    by_cases hk : kv.1 = k
    · have h1 : (kv.1 != k) = false := by simp [hk]
      have h2 : (k' == kv.1) = false := by simp [hk]; exact h
      simp [List.filter_cons, h1, List.lookup, h2, ih]
    · have h1 : (kv.1 != k) = true := by simp [hk]
      by_cases hk' : k' = kv.1
      · simp [List.filter_cons, h1, List.lookup, hk']
      · have h2 : (k' == kv.1) = false := by simp [hk']
        simp [List.filter_cons, h1, List.lookup, h2, ih]

theorem lookup_filter_self_key (k : String) :
    ∀ l : List (String × Nat),
      List.lookup k (l.filter (fun kv => kv.1 != k)) = none := by
  intro l
  induction l with
  | nil => rfl
  | cons kv l ih =>
    by_cases hk : kv.1 = k
    · have h1 : (kv.1 != k) = false := by simp [hk]
      simp [List.filter_cons, h1, ih]
    · have h1 : (kv.1 != k) = true := by simp [hk]
      have h2 : (k == kv.1) = false := by simp; exact fun e => hk e.symm
      simp [List.filter_cons, h1, List.lookup, h2, ih]

theorem get_state_set_self (s : Store) (k : String) (v : Nat) :
    get_state (set_state s k v) k = some v := by
  simp [get_state, set_state, List.lookup]

theorem get_state_set_ne (s : Store) (k k' : String) (v : Nat) (h : k' ≠ k) :
    get_state (set_state s k v) k' = get_state s k' := by
  have h2 : (k' == k) = false := by simp [h]
  simp only [get_state, set_state, List.lookup, h2]
  exact lookup_filter_ne_key k k' h s.app_state

theorem get_state_clear_self (s : Store) (k : String) :
    get_state (clear_state s k) k = none := by
  simp only [get_state, clear_state]
  exact lookup_filter_self_key k s.app_state

theorem get_state_clear_ne (s : Store) (k k' : String) (h : k' ≠ k) :
    get_state (clear_state s k) k' = get_state s k' := by
  simp only [get_state, clear_state]
  exact lookup_filter_ne_key k k' h s.app_state

theorem truncSecs_nonneg (d : Int) (h : 0 ≤ d) : 0 ≤ truncSecs d := by
  unfold truncSecs
  rw [if_pos h]
  exact Int.ediv_nonneg h (by decide)

theorem truncSecs_nonpos (d : Int) (h : d < 0) : truncSecs d ≤ 0 := by
  unfold truncSecs
  rw [if_neg (by omega)]
  have : 0 ≤ (-d) / usecPerSec := Int.ediv_nonneg (by omega) (by decide)
  omega

/-! ### C2 -/

/-- C2 (counterexample): the claim asserts that calling the store's
`stop_session` with the id of an already-closed session returns 0 and
leaves the store unchanged.  In `storeClosed`, session 1 is closed
(`end_time` is set), yet `stop_session` at instant `5 * 10^6` returns 5
(not 0) and rewrites the row's end time and duration. -/
theorem C2_counterexample :
    (∃ sess ∈ storeClosed.sessions, sess.id = 1 ∧ sess.end_time ≠ none) ∧
    (stop_session storeClosed 1 5000000).2 = 5 ∧
    (stop_session storeClosed 1 5000000).1 ≠ storeClosed := by decide

/-- C2 (amended): for a session id that does not exist in the store,
`stop_session` returns 0 and leaves the entire store unchanged.  (For an
id that exists but is already closed, the code re-closes the row —
overwriting its end time and duration and clearing the AppState
pointer — and returns the recomputed duration.) -/
theorem C2_stop_missing_noop (s : Store) (sid : Nat) (now : Int)
    (h : ∀ sess ∈ s.sessions, sess.id ≠ sid) :
    stop_session s sid now = (s, 0) := by
  unfold stop_session
  have hfind : s.sessions.find? (fun sess => sess.id == sid) = none := by
    rw [List.find?_eq_none]
    intro x hx
    simp [h x hx]
  rw [hfind]

/-- C2 witness: session id 99 is absent from `storeClosed`, and
stopping it is a no-op returning 0. -/
theorem C2_stop_missing_noop_witness :
    stop_session storeClosed 99 5000000 = (storeClosed, 0) :=
  C2_stop_missing_noop storeClosed 99 5000000 (by decide)

/-! ### C3 -/

/-- C3 (counterexample): the claim asserts `elapsed_seconds` is never
negative, clamped to 0 under a clock anomaly.  For the running tracker
`trackerAt10` (session started at instant `10^7`) queried at the
earlier instant `4 * 10^6`, the code returns `-6`. -/
theorem C3_counterexample :
    trackerAt10.is_running = true ∧
    TimeTracker.elapsed_seconds trackerAt10 4000000 = -6 ∧
    TimeTracker.elapsed_seconds trackerAt10 4000000 < 0 := by decide

/-- C3 (amended): `elapsed_seconds` returns 0 when no session start is
recorded (Idle); while Running with a normal clock (`startedAt ≤ now`)
it returns `now - startedAt` truncated to whole seconds, a nonnegative
value; but under a clock anomaly (`now < startedAt`) the value is not
clamped: it is the toward-zero truncation of the negative difference,
hence possibly negative (it is never positive). -/
theorem C3_elapsed_seconds (t : TimeTracker) (now : Int) :
    (t.session_start = none → t.elapsed_seconds now = 0) ∧
    (∀ st, t.session_start = some st →
      (st ≤ now →
        t.elapsed_seconds now = (now - st) / usecPerSec ∧
        0 ≤ t.elapsed_seconds now) ∧
      (now < st → t.elapsed_seconds now ≤ 0)) := by
  constructor
  · intro h
    simp [TimeTracker.elapsed_seconds, h]
  · intro st hst
    constructor
    · intro hle
      have hd : (0 : Int) ≤ now - st := by omega
      constructor
      · simp [TimeTracker.elapsed_seconds, hst, truncSecs, hd]
      · simp only [TimeTracker.elapsed_seconds, hst]
        exact truncSecs_nonneg _ hd
    · intro hlt
      simp only [TimeTracker.elapsed_seconds, hst]
      exact truncSecs_nonpos _ (by omega)

/-- C3 witness: instantiating the amended statement on `trackerAt10` at
the anomalous instant `4 * 10^6`. -/
theorem C3_elapsed_seconds_witness :
    TimeTracker.elapsed_seconds trackerAt10 4000000 ≤ 0 :=
  ((C3_elapsed_seconds trackerAt10 4000000).2 10000000 rfl).2 (by decide)

/-! ### C5 -/

/-- C5: while the tracker is Running with active project `P`,
`remove_project P` fails with the `ValueError` (the model's
`InvalidOperation`) and returns no modified state — the store, the
project's archived flag and the running timer are untouched; while
`remove_project Q` for any other `Q` succeeds and archives exactly the
projects with id `Q`, leaving every other project row and the running
timer as they were. -/
theorem C5_remove_project (t : TimeTracker) (P : Nat)
    (_hrun : t.is_running = true) (hP : t.active_project_id = some P) :
    t.remove_project P = Except.error "Cannot delete a project with a running timer." ∧
    ∀ Q, Q ≠ P →
      t.remove_project Q = Except.ok { t with conn := delete_project t.conn Q } ∧
      (∀ proj ∈ t.conn.projects, proj.id = Q →
        { proj with archived := true } ∈ (delete_project t.conn Q).projects) ∧
      (∀ proj ∈ t.conn.projects, proj.id ≠ Q →
        proj ∈ (delete_project t.conn Q).projects) := by
  constructor
  · unfold TimeTracker.remove_project
    rw [if_pos hP]
  · intro Q hQ
    refine ⟨?_, ?_, ?_⟩
    · unfold TimeTracker.remove_project
      rw [if_neg]
      rw [hP]
      simp
      exact fun e => hQ e.symm
    · intro proj hmem hid
      have h1 : (fun p : Project => if p.id == Q then { p with archived := true } else p)
          proj = { proj with archived := true } := by
        simp [hid]
      have h2 := List.mem_map_of_mem
        (fun p : Project => if p.id == Q then { p with archived := true } else p) hmem
      rw [h1] at h2
      exact h2
    · intro proj hmem hid
      have h1 : (fun p : Project => if p.id == Q then { p with archived := true } else p)
          proj = proj := by
        simp [hid]
      have h2 := List.mem_map_of_mem
        (fun p : Project => if p.id == Q then { p with archived := true } else p) hmem
      rw [h1] at h2
      exact h2

/-- C5 witness: `trackerWriting` runs on project 1; removing project 1
errors, removing project 2 archives it. -/
theorem C5_remove_project_witness :
    trackerWriting.remove_project 1 =
      Except.error "Cannot delete a project with a running timer." ∧
    trackerWriting.remove_project 2 =
      Except.ok { trackerWriting with conn := delete_project trackerWriting.conn 2 } := by
  have h := C5_remove_project trackerWriting 1 (by decide) rfl
  exact ⟨h.1, ((h.2 2 (by decide)).1)⟩

/-! ### C6 -/

/-- C6: `discard_timer` while Running closes the active session row
with stored duration 0 (whatever wall-clock time has elapsed), leaves
every other session row unchanged, clears both AppState pointer keys,
leaves the project rows alone, and moves the tracker to Idle;
`discard_timer` while Idle returns the tracker (and hence the store)
entirely unchanged. -/
theorem C6_discard_timer (t : TimeTracker) (now : Int) :
    (t.active_session_id = none → t.discard_timer now = t) ∧
    (∀ sid, t.active_session_id = some sid →
      (t.discard_timer now).active_session_id = none ∧
      (t.discard_timer now).active_project_id = none ∧
      (t.discard_timer now).session_start = none ∧
      get_state (t.discard_timer now).conn "active_session_id" = none ∧
      get_state (t.discard_timer now).conn "active_project_id" = none ∧
      (∀ sess ∈ t.conn.sessions, sess.id = sid →
        { sess with end_time := some now, duration := 0 } ∈ (t.discard_timer now).conn.sessions) ∧
      (∀ sess ∈ t.conn.sessions, sess.id ≠ sid →
        sess ∈ (t.discard_timer now).conn.sessions) ∧
      (t.discard_timer now).conn.projects = t.conn.projects) := by
  constructor
  · intro h
    unfold TimeTracker.discard_timer
    rw [h]
  · intro sid hsid
    have hdef : t.discard_timer now =
        { t with
          conn := clear_state (clear_state
            { t.conn with sessions := t.conn.sessions.map (fun sess =>
                if sess.id == sid then { sess with end_time := some now, duration := 0 }
                else sess) } "active_session_id") "active_project_id",
          active_session_id := none, active_project_id := none,
          session_start := none } := by
      unfold TimeTracker.discard_timer
      rw [hsid]
    rw [hdef]
    refine ⟨rfl, rfl, rfl, ?_, ?_, ?_, ?_, rfl⟩
    · rw [get_state_clear_ne _ _ _ (by decide)]
      exact get_state_clear_self _ _
    · exact get_state_clear_self _ _
    · intro sess hmem hid
      show _ ∈ (t.conn.sessions.map (fun sess =>
        if sess.id == sid then { sess with end_time := some now, duration := 0 } else sess))
      have h1 : (fun sess : Session =>
          if sess.id == sid then { sess with end_time := some now, duration := 0 } else sess)
          sess = { sess with end_time := some now, duration := 0 } := by
        simp [hid]
      have h2 := List.mem_map_of_mem
        (fun sess : Session =>
          if sess.id == sid then { sess with end_time := some now, duration := 0 } else sess)
        hmem
      rw [h1] at h2
      exact h2
    · intro sess hmem hid
      show sess ∈ (t.conn.sessions.map (fun sess =>
        if sess.id == sid then { sess with end_time := some now, duration := 0 } else sess))
      have h1 : (fun sess : Session =>
          if sess.id == sid then { sess with end_time := some now, duration := 0 } else sess)
          sess = sess := by
        simp [hid]
      have h2 := List.mem_map_of_mem
        (fun sess : Session =>
          if sess.id == sid then { sess with end_time := some now, duration := 0 } else sess)
        hmem
      rw [h1] at h2
      exact h2

/-- C6 witness: discarding the running session of `trackerWriting`
closes session 3 with duration 0 and clears both pointer keys. -/
theorem C6_discard_timer_witness :
    (trackerWriting.discard_timer 10120000000).active_session_id = none ∧
    get_state (trackerWriting.discard_timer 10120000000).conn "active_session_id" = none := by
  have h := (C6_discard_timer trackerWriting 10120000000).2 3 rfl
  exact ⟨h.1, h.2.2.2.1⟩

/-! ### C4 -/

theorem session_id_unique (l : List Session) (hnd : (l.map Session.id).Nodup)
    {a b : Session} (ha : a ∈ l) (hb : b ∈ l) (hid : a.id = b.id) : a = b :=
  List.inj_on_of_nodup_map hnd ha hb hid

theorem get_active_session_eq (s : Store) (sid : Nat) (sess : Session)
    (hnd : (sessionIds s).Nodup)
    (hptr : get_state s "active_session_id" = some sid)
    (hmem : sess ∈ s.sessions) (hid : sess.id = sid) (hopen : sess.end_time = none)
    (hproj : ∃ p ∈ s.projects, p.id = sess.project_id) :
    get_active_session s = some sess := by
  have hpred : (fun x : Session => x.id == sid && x.end_time.isNone) sess = true := by
    simp [hid, hopen]
  cases hfind : s.sessions.find? (fun x => x.id == sid && x.end_time.isNone) with
  | none =>
    rw [List.find?_eq_none] at hfind
    exact absurd hpred (by simpa using hfind sess hmem)
  | some row =>
    have hrowmem := List.mem_of_find?_eq_some hfind
    have hrowpred := List.find?_some hfind
    have hrowid : row.id = sid := by
      simp only [Bool.and_eq_true, beq_iff_eq] at hrowpred
      exact hrowpred.1
    have hrow : row = sess :=
      session_id_unique s.sessions hnd hrowmem hmem (by rw [hrowid, hid])
    unfold get_active_session
    rw [hptr]
    simp [hfind, hrow]
    exact hproj

theorem stop_timer_recovered (t : TimeTracker) (now : Int) :
    ((t.stop_timer now).1).recovered = t.recovered := by
  unfold TimeTracker.stop_timer
  cases t.active_session_id <;> rfl

theorem start_timer_recovered (t : TimeTracker) (pid : Nat) (now : Int) :
    (t.start_timer pid now).recovered = t.recovered := by
  unfold TimeTracker.start_timer
  cases h : t.is_running
  · simp [h]
  · simp [h, stop_timer_recovered]

theorem discard_timer_recovered (t : TimeTracker) (now : Int) :
    (t.discard_timer now).recovered = t.recovered := by
  unfold TimeTracker.discard_timer
  cases t.active_session_id <;> rfl

theorem applyOp_recovered (t : TimeTracker) (op : Op) :
    (applyOp t op).recovered = t.recovered := by
  cases op with
  | start pid now => exact start_timer_recovered t pid now
  | stop now => exact stop_timer_recovered t now
  | discard now => exact discard_timer_recovered t now

theorem runOps_recovered (ops : List Op) :
    ∀ t : TimeTracker, (runOps t ops).recovered = t.recovered := by
  induction ops with
  | nil => intro t; rfl
  | cons op ops ih =>
    intro t
    show (runOps (applyOp t op) ops).recovered = t.recovered
    rw [ih (applyOp t op), applyOp_recovered]

/-- C4: constructing a tracker against a store in which session `S` on
project `P` is open and designated by the AppState pointer yields the
Running state with active session `S` and active project `P` and the
`recovered` flag set; one `acknowledge_recovery` resets the flag, and it
stays false across every further sequence of timer operations (only a
fresh construction can set it again). -/
theorem C4_recovery (s : Store) (S P : Nat) (sess : Session)
    (hnd : (sessionIds s).Nodup)
    (hmem : sess ∈ s.sessions) (hid : sess.id = S) (hopen : sess.end_time = none)
    (hproj : sess.project_id = P)
    (hptr : get_state s "active_session_id" = some S)
    (hpex : ∃ p ∈ s.projects, p.id = P) :
    (TimeTracker.init s).is_running = true ∧
    (TimeTracker.init s).active_session_id = some S ∧
    (TimeTracker.init s).active_project_id = some P ∧
    (TimeTracker.init s).recovered = true ∧
    (TimeTracker.init s).acknowledge_recovery.recovered = false ∧
    ∀ ops, (runOps (TimeTracker.init s).acknowledge_recovery ops).recovered = false := by
  have hga : get_active_session s = some sess :=
    get_active_session_eq s S sess hnd hptr hmem hid hopen (hproj ▸ hpex)
  have hinit : TimeTracker.init s =
      { conn := s, active_session_id := some sess.id,
        active_project_id := some sess.project_id,
        session_start := some sess.start_time, recovered := true } := by
    unfold TimeTracker.init TimeTracker.restore_active_session
    show (match get_active_session s with
      | some sess => _
      | none => _) = _
    rw [hga]
  rw [hinit]
  refine ⟨rfl, by rw [hid], by rw [hproj], rfl, rfl, ?_⟩
  intro ops
  rw [runOps_recovered]
  rfl

/-- C4 witness: recovery against `storeCrashed`, whose pointer
designates open session 3 on project 7. -/
theorem C4_recovery_witness :
    (TimeTracker.init storeCrashed).active_session_id = some 3 ∧
    (TimeTracker.init storeCrashed).active_project_id = some 7 ∧
    (TimeTracker.init storeCrashed).recovered = true ∧
    (runOps (TimeTracker.init storeCrashed).acknowledge_recovery
      [Op.start 7 100, Op.stop 200]).recovered = false := by
  have h := C4_recovery storeCrashed 3 7
    { id := 3, project_id := 7, start_time := 42,
      end_time := none, duration := 0, note := none }
    (by decide) (by decide) rfl rfl rfl rfl ⟨{ id := 7, name := "P", color := "#FFFFFF", archived := false }, by decide, rfl⟩
  exact ⟨h.2.1, h.2.2.1, h.2.2.2.1, h.2.2.2.2.2 [Op.start 7 100, Op.stop 200]⟩

/-! ### C9 -/

theorem map_close_id (sid : Nat) (now d : Int) (l : List Session)
    (h : ∀ x ∈ l, x.id ≠ sid) :
    l.map (fun x => if x.id == sid
      then { x with end_time := some now, duration := d } else x) = l := by
  induction l with
  | nil => rfl
  | cons head tail ih =>
    have h1 : (head.id == sid) = false := by
      simp [h head (List.mem_cons_self head tail)]
    rw [List.map_cons, h1]
    simp only [Bool.false_eq_true, if_false]
    rw [ih (fun x hx => h x (List.mem_cons_of_mem head hx))]

theorem closed_sum_close (sid : Nat) (now d : Int) (p : Nat) :
    ∀ l : List Session, (l.map Session.id).Nodup →
      ∀ sess ∈ l, sess.id = sid → sess.end_time = none → sess.project_id = p →
      (((l.map (fun x => if x.id == sid
           then { x with end_time := some now, duration := d } else x)).filter
          (fun x => x.project_id == p && x.end_time.isSome)).map Session.duration).sum
        = ((l.filter
            (fun x => x.project_id == p && x.end_time.isSome)).map Session.duration).sum + d := by
  intro l
  induction l with
  | nil => intro _ sess hmem; exact absurd hmem (List.not_mem_nil sess)
  | cons head tail ih =>
    intro hnd sess hmem hid hopen hproj
    have hndtail : (tail.map Session.id).Nodup := by
      rw [List.map_cons] at hnd
      exact hnd.of_cons
    rcases List.mem_cons.mp hmem with hh | ht
    · subst hh
      have hnotin : ∀ x ∈ tail, x.id ≠ sid := by
        rw [List.map_cons] at hnd
        intro x hx hxe
        have hin : sess.id ∈ tail.map Session.id := by
          rw [hid, ← hxe]
          exact List.mem_map_of_mem Session.id hx
        exact (List.nodup_cons.mp hnd).1 hin
      rw [List.map_cons, map_close_id sid now d tail hnotin]
      have hfh : (sess.id == sid) = true := by simp [hid]
      simp [hfh, hopen, hproj, List.filter_cons]
      omega
    · have hheadne : head.id ≠ sid := by
        intro he
        rw [List.map_cons] at hnd
        have hin : head.id ∈ tail.map Session.id := by
          rw [he, ← hid]
          exact List.mem_map_of_mem Session.id ht
        exact (List.nodup_cons.mp hnd).1 hin
      have hfh : (head.id == sid) = false := by simp [hheadne]
      have ihe := ih hndtail sess ht hid hopen hproj
      rw [List.map_cons]
      simp only [hfh, Bool.false_eq_true, if_false]
      by_cases hc : (head.project_id == p && head.end_time.isSome) = true
      · simp [List.filter_cons, hc] at ihe ⊢
        omega
      · simp [List.filter_cons, hc] at ihe ⊢
        omega

theorem stop_session_eq_of_find (s : Store) (sid : Nat) (now : Int) (row : Session)
    (hfind : s.sessions.find? (fun x => x.id == sid) = some row) :
    stop_session s sid now =
      (clear_state (clear_state
        { s with sessions := s.sessions.map (fun x =>
            if x.id == sid then
              { x with end_time := some now,
                       duration := truncSecs (now - row.start_time) }
            else x) } "active_session_id") "active_project_id",
       truncSecs (now - row.start_time)) := by
  unfold stop_session
  rw [hfind]

theorem find?_id_eq (s : Store) (sid : Nat) (sess : Session)
    (hnd : (s.sessions.map Session.id).Nodup) (hmem : sess ∈ s.sessions)
    (hid : sess.id = sid) :
    s.sessions.find? (fun x => x.id == sid) = some sess := by
  have hpred : (fun x : Session => x.id == sid) sess = true := by simp [hid]
  cases hfind : s.sessions.find? (fun x => x.id == sid) with
  | none =>
    rw [List.find?_eq_none] at hfind
    exact absurd hpred (by simpa using hfind sess hmem)
  | some row =>
    have hrowmem := List.mem_of_find?_eq_some hfind
    have hrowpred := List.find?_some hfind
    have hrowid : row.id = sid := by simpa using hrowpred
    rw [session_id_unique s.sessions hnd hrowmem hmem (by rw [hrowid, hid])]

theorem get_project_total_stop (s : Store) (sid : Nat) (now : Int) (sess : Session)
    (hnd : (s.sessions.map Session.id).Nodup) (hmem : sess ∈ s.sessions)
    (hid : sess.id = sid) (hopen : sess.end_time = none) :
    (stop_session s sid now).2 = truncSecs (now - sess.start_time) ∧
    get_project_total_seconds (stop_session s sid now).1 sess.project_id
      = get_project_total_seconds s sess.project_id + truncSecs (now - sess.start_time) := by
  have hfind := find?_id_eq s sid sess hnd hmem hid
  have heq := stop_session_eq_of_find s sid now sess hfind
  constructor
  · rw [heq]
  · rw [heq]
    show get_project_total_seconds _ _ = _
    unfold get_project_total_seconds
    rw [clear_state_sessions, clear_state_sessions]
    show (((s.sessions.map _).filter _).map _).sum = _
    exact closed_sum_close sid now (truncSecs (now - sess.start_time)) sess.project_id
      s.sessions hnd sess hmem hid hopen rfl

theorem stop_timer_eq_of_some (t : TimeTracker) (sid : Nat) (now : Int)
    (hact : t.active_session_id = some sid) :
    t.stop_timer now =
      ({ t with conn := (stop_session t.conn sid now).1, active_session_id := none,
                active_project_id := none, session_start := none },
       (stop_session t.conn sid now).2) := by
  unfold TimeTracker.stop_timer
  rw [hact]

/-- C9: with the tracker Running on project `p` (open session `sid`),
`get_project_total p` equals the store-side sum of closed-session
durations plus the live `elapsed_seconds`; totals of other projects get
no live increment; and immediately after `stop_timer` the live total of
`p` equals the store-side sum alone, the store-side sum now being the
old sum plus the just-returned duration (no double count, no gap). -/
theorem C9_project_total (t : TimeTracker) (p sid : Nat) (now now2 : Int) (sess : Session)
    (hnd : (sessionIds t.conn).Nodup)
    (hact : t.active_session_id = some sid) (hproj : t.active_project_id = some p)
    (hmem : sess ∈ t.conn.sessions) (hid : sess.id = sid) (hopen : sess.end_time = none)
    (hsp : sess.project_id = p) :
    t.get_project_total p now = get_project_total_seconds t.conn p + t.elapsed_seconds now ∧
    (∀ q, q ≠ p → t.get_project_total q now = get_project_total_seconds t.conn q) ∧
    ((t.stop_timer now).1).get_project_total p now2
      = get_project_total_seconds ((t.stop_timer now).1).conn p ∧
    get_project_total_seconds ((t.stop_timer now).1).conn p
      = get_project_total_seconds t.conn p + (t.stop_timer now).2 := by
  have hstop := stop_timer_eq_of_some t sid now hact
  have htot := get_project_total_stop t.conn sid now sess hnd hmem hid hopen
  refine ⟨?_, ?_, ?_, ?_⟩
  · simp [TimeTracker.get_project_total, TimeTracker.is_running, hact, hproj]
  · intro q hq
    have hne : (t.active_project_id == some q) = false := by
      rw [hproj]
      simp
      exact fun e => hq e.symm
    simp [TimeTracker.get_project_total, hne]
  · rw [hstop]
    simp [TimeTracker.get_project_total, TimeTracker.is_running]
  · rw [hstop]
    show get_project_total_seconds (stop_session t.conn sid now).1 p
      = get_project_total_seconds t.conn p + (stop_session t.conn sid now).2
    rw [htot.1, ← hsp, htot.2]

/-- C9 witness: the spec's worked example — stored total 5400 s, a
session running for 120 s gives a live total of 5520 s, and stopping
persists 5520 s. -/
theorem C9_project_total_witness :
    trackerWriting.get_project_total 1 10120000000 = 5520 ∧
    get_project_total_seconds ((trackerWriting.stop_timer 10120000000).1).conn 1 = 5520 := by
  have h := C9_project_total trackerWriting 1 3 10120000000 10120000000
    { id := 3, project_id := 1, start_time := 10000000000,
      end_time := none, duration := 0, note := none }
    (by decide) rfl rfl (by decide) rfl rfl rfl
  constructor
  · rw [h.1]
    decide
  · rw [h.2.2.2]
    decide

/-! ### C8 -/

/-- C8 (counterexample): the claim asserts that a closed session
starting at any time on the `dateTo` day is included.  `sessLate` is a
closed session of an existing project starting on day 0 (at
23:59:59.500000), yet `get_sessions` with `date_to = day 0` returns the
empty list: the SQL bound `date_to + "T23:59:59"` excludes start times
in the fractional part of the day's last second. -/
theorem C8_counterexample :
    sessLate ∈ storeLate.sessions ∧ sessLate.end_time ≠ none ∧
    dayStart 0 ≤ sessLate.start_time ∧ sessLate.start_time < dayStart 1 ∧
    get_sessions storeLate none none (some 0) = [] := by decide

theorem sessionMatches_iff (s : Store) (pid? : Option Nat) (dfrom? dto? : Option Int)
    (hpid : ∀ pid, pid? = some pid → pid ≠ 0) (sess : Session) :
    sessionMatches s pid? dfrom? dto? sess = true ↔
      sess.end_time ≠ none ∧ (∃ p ∈ s.projects, p.id = sess.project_id) ∧
      (∀ pid, pid? = some pid → sess.project_id = pid) ∧
      (∀ d, dfrom? = some d → dayStart d ≤ sess.start_time) ∧
      (∀ d, dto? = some d → sess.start_time ≤ dayEndBound d) := by
  unfold sessionMatches
  cases pid? with
  | none =>
    cases dfrom? <;> cases dto? <;>
      simp [Option.isSome_iff_ne_none, and_assoc]
  | some pid =>
    have hne : (pid == 0) = false := by simp [hpid pid rfl]
    cases dfrom? <;> cases dto? <;>
      simp [hne, Option.isSome_iff_ne_none, and_assoc]

/-- C8 (amended): `get_sessions` returns the closed sessions (end
timestamp set, joined to an existing project), restricted to the given
project when a nonzero project filter is given, and to the sessions
whose start instant lies in `[dateFrom day start, dateTo 23:59:59]` —
the upper bound cuts within the last second of the `dateTo` day, so a
session starting at a fractional instant after `23:59:59.000000` of the
`dateTo` day is excluded; the result is ordered by start time
descending. -/
theorem C8_get_sessions (s : Store) (pid? : Option Nat) (dfrom? dto? : Option Int)
    (hpid : ∀ pid, pid? = some pid → pid ≠ 0) :
    (get_sessions s pid? dfrom? dto?).Pairwise
      (fun a b => b.start_time ≤ a.start_time) ∧
    ∀ sess, sess ∈ get_sessions s pid? dfrom? dto? ↔
      sess ∈ s.sessions ∧ sess.end_time ≠ none ∧
      (∃ p ∈ s.projects, p.id = sess.project_id) ∧
      (∀ pid, pid? = some pid → sess.project_id = pid) ∧
      (∀ d, dfrom? = some d → dayStart d ≤ sess.start_time) ∧
      (∀ d, dto? = some d → sess.start_time ≤ dayEndBound d) := by
  constructor
  · exact List.sorted_insertionSort startDescOrder
      (s.sessions.filter (sessionMatches s pid? dfrom? dto?))
  · intro sess
    rw [get_sessions, List.mem_insertionSort, List.mem_filter,
      sessionMatches_iff s pid? dfrom? dto? hpid sess]

/-- C8 witness: with a nonzero project filter and `date_to = day 0`,
`sessLate` (which starts on day 0, after 23:59:59.000000) is excluded. -/
theorem C8_get_sessions_witness :
    sessLate ∉ get_sessions storeLate (some 1) none (some 0) := by
  intro hm
  have h := C8_get_sessions storeLate (some 1) none (some 0)
    (by intro pid hp; cases hp; decide)
  have h2 := (h.2 sessLate).mp hm
  have h3 := h2.2.2.2.2.2 0 rfl
  revert h3
  decide

/-! ### C1 -/

theorem no_open_of_openSessions_nil (c : Store) (h : openSessions c = []) :
    ∀ x ∈ c.sessions, x.end_time ≠ none := by
  intro x hx he
  have hmem : x ∈ openSessions c := by
    unfold openSessions
    rw [List.mem_filter]
    exact ⟨hx, by simp [he]⟩
  rw [h] at hmem
  exact absurd hmem (List.not_mem_nil x)

theorem openSessions_nil_of_idle (t : TimeTracker) (h : OpenInv t)
    (hact : t.active_session_id = none) : openSessions t.conn = [] := by
  unfold openSessions
  rw [List.filter_eq_nil_iff]
  intro x hx hxe
  have h2 := h.2 x hx (by simpa using hxe)
  rw [hact] at h2
  cases h2

theorem ids_map_update (l : List Session) (f : Session → Session)
    (h : ∀ x, (f x).id = x.id) : (l.map f).map Session.id = l.map Session.id := by
  induction l with
  | nil => rfl
  | cons a l ih => simp [h, ih]

theorem close_fn_id (sid : Nat) (e d : Int) :
    ∀ x : Session, ((if x.id == sid
      then { x with end_time := some e, duration := d } else x) : Session).id = x.id := by
  intro x
  by_cases hx : (x.id == sid) = true
  · simp [hx]
  · simp [hx]

theorem openSessions_map_close (l : List Session) (sid : Nat) (e d : Int) :
    (l.map (fun x => if x.id == sid
      then { x with end_time := some e, duration := d } else x)).filter
      (fun x => x.end_time.isNone) = [] ∨
    ∃ y ∈ l, y.end_time = none ∧ y.id ≠ sid := by
  by_cases hall : ∀ y ∈ l, y.end_time = none → y.id = sid
  · left
    rw [List.filter_eq_nil_iff]
    intro x hx hxe
    rcases List.mem_map.mp hx with ⟨y, hy, hyx⟩
    by_cases hys : (y.id == sid) = true
    · rw [if_pos hys] at hyx
      rw [← hyx] at hxe
      simp at hxe
    · rw [if_neg hys] at hyx
      rw [← hyx] at hxe
      have hyn : y.end_time = none := by simpa using hxe
      exact hys (by simp [hall y hy hyn])
  · right
    push_neg at hall
    rcases hall with ⟨y, hy, hyn, hys⟩
    exact ⟨y, hy, hyn, hys⟩

theorem stop_session_eq_nofind (s : Store) (sid : Nat) (now : Int)
    (hfind : s.sessions.find? (fun x => x.id == sid) = none) :
    stop_session s sid now = (s, 0) := by
  unfold stop_session
  rw [hfind]

theorem stop_timer_inv (t : TimeTracker) (now : Int) (h : OpenInv t) :
    OpenInv ((t.stop_timer now).1) ∧
    openSessions ((t.stop_timer now).1).conn = [] ∧
    ((t.stop_timer now).1).active_session_id = none := by
  cases hact : t.active_session_id with
  | none =>
    have heq : t.stop_timer now = (t, 0) := by
      unfold TimeTracker.stop_timer
      rw [hact]
    rw [heq]
    exact ⟨h, openSessions_nil_of_idle t h hact, hact⟩
  | some sid =>
    have hopensid : ∀ y ∈ t.conn.sessions, y.end_time = none → y.id = sid := by
      intro y hy hyn
      have h2 := h.2 y hy hyn
      rw [hact] at h2
      exact (Option.some.inj h2).symm
    have heq2 := stop_timer_eq_of_some t sid now hact
    cases hfind : t.conn.sessions.find? (fun x => x.id == sid) with
    | none =>
      have hss := stop_session_eq_nofind t.conn sid now hfind
      rw [heq2, hss]
      have hnoopen : ∀ y ∈ t.conn.sessions, y.end_time ≠ none := by
        intro y hy hyn
        rw [List.find?_eq_none] at hfind
        exact hfind y hy (by simp [hopensid y hy hyn])
      have hnil : openSessions t.conn = [] := by
        unfold openSessions
        rw [List.filter_eq_nil_iff]
        intro x hx hxe
        exact hnoopen x hx (by simpa using hxe)
      exact ⟨⟨h.1, fun x hx he => absurd he (hnoopen x hx)⟩, hnil, rfl⟩
    | some row =>
      have heqs := stop_session_eq_of_find t.conn sid now row hfind
      have hnil : (t.conn.sessions.map (fun x => if x.id == sid
          then { x with end_time := some now,
                        duration := truncSecs (now - row.start_time) }
          else x)).filter (fun x => x.end_time.isNone) = [] := by
        rcases openSessions_map_close t.conn.sessions sid now
          (truncSecs (now - row.start_time)) with hc | ⟨y, hy, hyn, hys⟩
        · exact hc
        · exact absurd (hopensid y hy hyn) hys
      have hnil' := List.filter_eq_nil_iff.mp hnil
      rw [heq2, heqs]
      refine ⟨⟨⟨?_, ?_⟩, ?_⟩, ?_, rfl⟩
      · show ((t.conn.sessions.map (fun x => if x.id == sid
          then { x with end_time := some now,
                        duration := truncSecs (now - row.start_time) }
          else x)).map Session.id).Nodup
        rw [ids_map_update _ _ (close_fn_id sid now (truncSecs (now - row.start_time)))]
        exact h.1.1
      · intro x hx
        have hx' : x ∈ t.conn.sessions.map (fun x => if x.id == sid
            then { x with end_time := some now,
                          duration := truncSecs (now - row.start_time) }
            else x) := hx
        show x.id < t.conn.next_session_id
        rcases List.mem_map.mp hx' with ⟨y, hy, hyx⟩
        rw [← hyx, close_fn_id sid now (truncSecs (now - row.start_time)) y]
        exact h.1.2 y hy
      · intro x hx he
        have hx' : x ∈ t.conn.sessions.map (fun x => if x.id == sid
            then { x with end_time := some now,
                          duration := truncSecs (now - row.start_time) }
            else x) := hx
        exact absurd (show x.end_time.isNone = true by simp [he]) (hnil' x hx')
      · show (t.conn.sessions.map (fun x => if x.id == sid
          then { x with end_time := some now,
                        duration := truncSecs (now - row.start_time) }
          else x)).filter (fun x => x.end_time.isNone) = []
        exact hnil

theorem discard_timer_inv (t : TimeTracker) (now : Int) (h : OpenInv t) :
    OpenInv (t.discard_timer now) ∧
    openSessions (t.discard_timer now).conn = [] ∧
    (t.discard_timer now).active_session_id = none := by
  cases hact : t.active_session_id with
  | none =>
    have heq : t.discard_timer now = t := by
      unfold TimeTracker.discard_timer
      rw [hact]
    rw [heq]
    exact ⟨h, openSessions_nil_of_idle t h hact, hact⟩
  | some sid =>
    have hopensid : ∀ y ∈ t.conn.sessions, y.end_time = none → y.id = sid := by
      intro y hy hyn
      have h2 := h.2 y hy hyn
      rw [hact] at h2
      exact (Option.some.inj h2).symm
    have heq : t.discard_timer now =
        { t with
          conn := clear_state (clear_state
            { t.conn with sessions := t.conn.sessions.map (fun x =>
                if x.id == sid then { x with end_time := some now, duration := 0 }
                else x) } "active_session_id") "active_project_id",
          active_session_id := none, active_project_id := none,
          session_start := none } := by
      unfold TimeTracker.discard_timer
      rw [hact]
    rw [heq]
    have hnil : (t.conn.sessions.map (fun x =>
        if x.id == sid then { x with end_time := some now, duration := 0 }
        else x)).filter (fun x => x.end_time.isNone) = [] := by
      rcases openSessions_map_close t.conn.sessions sid now 0 with hc | ⟨y, hy, hyn, hys⟩
      · exact hc
      · exact absurd (hopensid y hy hyn) hys
    refine ⟨⟨⟨?_, ?_⟩, ?_⟩, ?_, rfl⟩
    · show ((t.conn.sessions.map _).map Session.id).Nodup
      rw [ids_map_update _ _ (close_fn_id sid now 0)]
      exact h.1.1
    · intro x hx
      rcases List.mem_map.mp hx with ⟨y, hy, hyx⟩
      show x.id < t.conn.next_session_id
      rw [← hyx, close_fn_id sid now 0 y]
      exact h.1.2 y hy
    · intro x hx he
      rw [List.filter_eq_nil_iff] at hnil
      exact absurd (by simp [he]) (hnil x hx)
    · unfold openSessions
      exact hnil

theorem start_session_unfold (c : Store) (pid : Nat) (now : Int) :
    start_session c pid now =
      (set_state (set_state
        { c with
          sessions := c.sessions ++
            [{ id := c.next_session_id, project_id := pid, start_time := now,
               end_time := none, duration := 0, note := none }],
          next_session_id := c.next_session_id + 1 }
        "active_session_id" c.next_session_id) "active_project_id" pid,
       c.next_session_id) := rfl

theorem start_session_state (c : Store) (pid : Nat) (now : Int) :
    (start_session c pid now).1.sessions = c.sessions ++
      [{ id := c.next_session_id, project_id := pid, start_time := now,
         end_time := none, duration := 0, note := none }] ∧
    (start_session c pid now).1.next_session_id = c.next_session_id + 1 ∧
    (start_session c pid now).2 = c.next_session_id ∧
    get_state (start_session c pid now).1 "active_session_id" = some c.next_session_id ∧
    get_state (start_session c pid now).1 "active_project_id" = some pid := by
  rw [start_session_unfold]
  refine ⟨rfl, rfl, rfl, ?_, ?_⟩
  · rw [get_state_set_ne _ _ _ _ (by decide)]
    exact get_state_set_self _ _ _
  · exact get_state_set_self _ _ _

theorem start_timer_start_state (t1 : TimeTracker) (pid : Nat) (now : Int)
    (h : OpenInv t1) (hnil : openSessions t1.conn = []) :
    OpenInv
      { t1 with
        conn := (start_session t1.conn pid now).1,
        active_session_id := some (start_session t1.conn pid now).2,
        active_project_id := some pid, session_start := some now } := by
  obtain ⟨⟨hnd, hbound⟩, _⟩ := h
  have hno := no_open_of_openSessions_nil t1.conn hnil
  obtain ⟨hsess, hnext, hsid, _, _⟩ := start_session_state t1.conn pid now
  constructor
  · constructor
    · show ((start_session t1.conn pid now).1.sessions.map Session.id).Nodup
      rw [hsess, List.map_append]
      rw [List.nodup_append]
      refine ⟨hnd, by simp, ?_⟩
      intro a ha hb
      simp at hb
      rcases List.mem_map.mp ha with ⟨y, hy, hya⟩
      have := hbound y hy
      omega
    · intro x hx
      show x.id < (start_session t1.conn pid now).1.next_session_id
      rw [hnext]
      have hx' : x ∈ (start_session t1.conn pid now).1.sessions := hx
      rw [hsess] at hx'
      rcases List.mem_append.mp hx' with h1 | h2
      · have := hbound x h1
        omega
      · rw [List.mem_singleton.mp h2]
        show t1.conn.next_session_id < t1.conn.next_session_id + 1
        omega
  · intro x hx he
    have hx' : x ∈ (start_session t1.conn pid now).1.sessions := hx
    rw [hsess] at hx'
    rcases List.mem_append.mp hx' with h1 | h2
    · exact absurd he (hno x h1)
    · show some (start_session t1.conn pid now).2 = some x.id
      rw [List.mem_singleton.mp h2, hsid]

theorem start_timer_eq (t : TimeTracker) (pid : Nat) (now : Int) :
    t.start_timer pid now =
      (let t1 := if t.is_running then (t.stop_timer now).1 else t
       { t1 with
         conn := (start_session t1.conn pid now).1,
         active_session_id := some (start_session t1.conn pid now).2,
         active_project_id := some pid, session_start := some now }) := rfl

theorem start_timer_inv (t : TimeTracker) (pid : Nat) (now : Int) (h : OpenInv t) :
    OpenInv (t.start_timer pid now) := by
  rw [start_timer_eq]
  cases hrun : t.is_running with
  | false =>
    simp only [Bool.false_eq_true, if_false]
    have hact : t.active_session_id = none := by
      unfold TimeTracker.is_running at hrun
      exact Option.not_isSome_iff_eq_none.mp (by simp [hrun])
    exact start_timer_start_state t pid now h (openSessions_nil_of_idle t h hact)
  | true =>
    simp only [if_true]
    obtain ⟨hinv, hnil, _⟩ := stop_timer_inv t now h
    exact start_timer_start_state _ pid now hinv hnil

theorem applyOp_inv (t : TimeTracker) (op : Op) (h : OpenInv t) :
    OpenInv (applyOp t op) := by
  cases op with
  | start pid now => exact start_timer_inv t pid now h
  | stop now => exact (stop_timer_inv t now h).1
  | discard now => exact (discard_timer_inv t now h).1

theorem runOps_inv (ops : List Op) :
    ∀ t : TimeTracker, OpenInv t → OpenInv (runOps t ops) := by
  induction ops with
  | nil => intro t h; exact h
  | cons op ops ih =>
    intro t h
    exact ih (applyOp t op) (applyOp_inv t op h)

theorem length_le_one_of_nodup_const (l : List Nat) (a : Nat) (hnd : l.Nodup)
    (h : ∀ x ∈ l, x = a) : l.length ≤ 1 := by
  cases l with
  | nil => simp
  | cons x xs =>
    cases xs with
    | nil => simp
    | cons y ys =>
      exfalso
      have hx : x = a := h x (by simp)
      have hy : y = a := h y (by simp)
      rw [List.nodup_cons] at hnd
      exact hnd.1 (by simp [hx, hy])

theorem openSessions_len_le_one (t : TimeTracker) (h : OpenInv t) :
    (openSessions t.conn).length ≤ 1 := by
  cases hact : t.active_session_id with
  | none =>
    rw [openSessions_nil_of_idle t h hact]
    simp
  | some sid =>
    have hsub : List.Sublist (openSessions t.conn) t.conn.sessions := List.filter_sublist _
    have hnd : ((openSessions t.conn).map Session.id).Nodup :=
      (hsub.map Session.id).nodup h.1.1
    have hall : ∀ x ∈ (openSessions t.conn).map Session.id, x = sid := by
      intro x hx
      rcases List.mem_map.mp hx with ⟨y, hy, hyx⟩
      unfold openSessions at hy
      rw [List.mem_filter] at hy
      have h2 := h.2 y hy.1 (by simpa using hy.2)
      rw [hact] at h2
      rw [← hyx]
      exact (Option.some.inj h2).symm
    have := length_le_one_of_nodup_const _ sid hnd hall
    rw [List.length_map] at this
    exact this

theorem init_no_open (s : Store) (hno : ∀ x ∈ s.sessions, x.end_time ≠ none) :
    TimeTracker.init s = { conn := s } := by
  have hnone : get_active_session s = none := by
    cases hg : get_state s "active_session_id" with
    | none =>
      unfold get_active_session
      rw [hg]
    | some sid =>
      have hfind : s.sessions.find? (fun x => x.id == sid && x.end_time.isNone) = none := by
        rw [List.find?_eq_none]
        intro x hx
        simp [Option.isNone_iff_eq_none, hno x hx]
      unfold get_active_session
      rw [hg]
      simp [hfind]
  unfold TimeTracker.init TimeTracker.restore_active_session
  rw [show ({ conn := s } : TimeTracker).conn = s from rfl, hnone]

/-- C1: starting from any well-formed store with no open session, every
sequence of timer operations (start, stop, discard) run through the
tracker leaves at most one session row with a null end timestamp. -/
theorem C1_single_active_session (s : Store) (hWF : StoreWF s)
    (hempty : openSessions s = []) (ops : List Op) :
    (openSessions (runOps (TimeTracker.init s) ops).conn).length ≤ 1 := by
  have hno := no_open_of_openSessions_nil s hempty
  rw [init_no_open s hno]
  have hinv : OpenInv { conn := s } :=
    ⟨hWF, fun x hx he => absurd he (hno x hx)⟩
  exact openSessions_len_le_one _ (runOps_inv ops _ hinv)

/-- C1 witness: a fresh store, with a start-start-stop sequence (the
second start implicitly stops the first session). -/
theorem C1_single_active_session_witness :
    (openSessions (runOps (TimeTracker.init storeFresh)
      [Op.start 1 0, Op.start 1 5000000, Op.stop 9000000]).conn).length ≤ 1 :=
  C1_single_active_session storeFresh (by decide) (by decide)
    [Op.start 1 0, Op.start 1 5000000, Op.stop 9000000]

/-! ### C7 and C10 -/

theorem get_state_clear_both_sid (X : Store) :
    get_state (clear_state (clear_state X "active_session_id")
      "active_project_id") "active_session_id" = none := by
  rw [get_state_clear_ne _ _ _ (by decide)]
  exact get_state_clear_self _ _

theorem get_state_clear_both_pid (X : Store) :
    get_state (clear_state (clear_state X "active_session_id")
      "active_project_id") "active_project_id" = none :=
  get_state_clear_self _ _

theorem stop_timer_coherent (t : TimeTracker) (now : Int) (h : Coherent t) :
    Coherent ((t.stop_timer now).1) := by
  obtain ⟨hinv, hsid, hpid, himp, hex⟩ := h
  cases hact : t.active_session_id with
  | none =>
    have heq : t.stop_timer now = (t, 0) := by
      unfold TimeTracker.stop_timer
      rw [hact]
    rw [heq]
    exact ⟨hinv, hsid, hpid, himp, hex⟩
  | some sid =>
    obtain ⟨sess, hmem, hid, hopen, _⟩ := hex sid hact
    have hfind : t.conn.sessions.find? (fun x => x.id == sid) = some sess :=
      find?_id_eq t.conn sid sess hinv.1.1 hmem hid
    have heqs := stop_session_eq_of_find t.conn sid now sess hfind
    have heq2 := stop_timer_eq_of_some t sid now hact
    have hinv' := (stop_timer_inv t now hinv).1
    have hconn : ((t.stop_timer now).1).conn = (stop_session t.conn sid now).1 := by
      rw [heq2]
    have hact' : ((t.stop_timer now).1).active_session_id = none := by
      rw [heq2]
    have hpid' : ((t.stop_timer now).1).active_project_id = none := by
      rw [heq2]
    refine ⟨hinv', ?_, ?_, ?_, ?_⟩
    · rw [hact', hconn, heqs]
      exact get_state_clear_both_sid _
    · rw [hpid', hconn, heqs]
      exact get_state_clear_both_pid _
    · intro _
      exact hpid'
    · intro sid' hs
      rw [hact'] at hs
      cases hs

theorem discard_timer_coherent (t : TimeTracker) (now : Int) (h : Coherent t) :
    Coherent (t.discard_timer now) := by
  obtain ⟨hinv, hsid, hpid, himp, hex⟩ := h
  cases hact : t.active_session_id with
  | none =>
    have heq : t.discard_timer now = t := by
      unfold TimeTracker.discard_timer
      rw [hact]
    rw [heq]
    exact ⟨hinv, hsid, hpid, himp, hex⟩
  | some sid =>
    have heq : t.discard_timer now =
        { t with
          conn := clear_state (clear_state
            { t.conn with sessions := t.conn.sessions.map (fun x =>
                if x.id == sid then { x with end_time := some now, duration := 0 }
                else x) } "active_session_id") "active_project_id",
          active_session_id := none, active_project_id := none,
          session_start := none } := by
      unfold TimeTracker.discard_timer
      rw [hact]
    have hinv' := (discard_timer_inv t now hinv).1
    refine ⟨hinv', ?_, ?_, ?_, ?_⟩
    · rw [heq]
      exact get_state_clear_both_sid _
    · rw [heq]
      exact get_state_clear_both_pid _
    · intro _
      rw [heq]
    · intro sid' hs
      rw [heq] at hs
      cases hs

theorem start_core_coherent (t1 : TimeTracker) (pid : Nat) (now : Int)
    (h : OpenInv t1) (hnil : openSessions t1.conn = []) :
    Coherent
      { t1 with
        conn := (start_session t1.conn pid now).1,
        active_session_id := some (start_session t1.conn pid now).2,
        active_project_id := some pid, session_start := some now } := by
  obtain ⟨hsess, hnext, hsid2, hgs, hgp⟩ := start_session_state t1.conn pid now
  refine ⟨start_timer_start_state t1 pid now h hnil, ?_, ?_, ?_, ?_⟩
  · show get_state (start_session t1.conn pid now).1 "active_session_id"
      = some (start_session t1.conn pid now).2
    rw [hgs, hsid2]
  · show get_state (start_session t1.conn pid now).1 "active_project_id" = some pid
    exact hgp
  · intro hn
    exact Option.noConfusion hn
  · intro sid' hs
    have hsid' : sid' = (start_session t1.conn pid now).2 := (Option.some.inj hs).symm
    refine ⟨{ id := t1.conn.next_session_id, project_id := pid, start_time := now,
              end_time := none, duration := 0, note := none }, ?_, ?_, rfl, rfl⟩
    · show _ ∈ (start_session t1.conn pid now).1.sessions
      rw [hsess]
      exact List.mem_append_right _ (by simp)
    · show t1.conn.next_session_id = sid'
      rw [hsid', hsid2]

theorem start_timer_coherent (t : TimeTracker) (pid : Nat) (now : Int) (h : Coherent t) :
    Coherent (t.start_timer pid now) := by
  rw [start_timer_eq]
  cases hrun : t.is_running with
  | false =>
    simp only [Bool.false_eq_true, if_false]
    have hact : t.active_session_id = none := by
      unfold TimeTracker.is_running at hrun
      exact Option.not_isSome_iff_eq_none.mp (by simp [hrun])
    exact start_core_coherent t pid now h.1 (openSessions_nil_of_idle t h.1 hact)
  | true =>
    simp only [if_true]
    exact start_core_coherent _ pid now (stop_timer_inv t now h.1).1
      (stop_timer_inv t now h.1).2.1

theorem applyOp_coherent (t : TimeTracker) (op : Op) (h : Coherent t) :
    Coherent (applyOp t op) := by
  cases op with
  | start pid now => exact start_timer_coherent t pid now h
  | stop now => exact stop_timer_coherent t now h
  | discard now => exact discard_timer_coherent t now h

theorem runOps_coherent (ops : List Op) :
    ∀ t : TimeTracker, Coherent t → Coherent (runOps t ops) := by
  induction ops with
  | nil => intro t h; exact h
  | cons op ops ih =>
    intro t h
    exact ih (applyOp t op) (applyOp_coherent t op h)

theorem init_coherent (s : Store) (h : StoreCoherent s) :
    Coherent (TimeTracker.init s) := by
  obtain ⟨hwf, hopen, hnp, hptr⟩ := h
  cases hg : get_state s "active_session_id" with
  | none =>
    have hno : ∀ x ∈ s.sessions, x.end_time ≠ none := by
      intro x hx he
      rw [hopen x hx he] at hg
      cases hg
    rw [init_no_open s hno]
    refine ⟨⟨hwf, fun x hx he => absurd he (hno x hx)⟩, ?_, ?_, ?_, ?_⟩
    · show get_state s "active_session_id" = none
      exact hg
    · show get_state s "active_project_id" = none
      exact hnp hg
    · intro _
      rfl
    · intro sid hs
      cases hs
  | some sid =>
    obtain ⟨sess, hmem, hid, hopen2, hgp, hpex⟩ := hptr sid hg
    have hga := get_active_session_eq s sid sess hwf.1 hg hmem hid hopen2 hpex
    have hinit : TimeTracker.init s =
        { conn := s, active_session_id := some sess.id,
          active_project_id := some sess.project_id,
          session_start := some sess.start_time, recovered := true } := by
      unfold TimeTracker.init TimeTracker.restore_active_session
      show (match get_active_session s with
        | some sess => _
        | none => _) = _
      rw [hga]
    rw [hinit]
    refine ⟨⟨hwf, ?_⟩, ?_, ?_, ?_, ?_⟩
    · intro x hx he
      have h2 := hopen x hx he
      rw [hg] at h2
      show some sess.id = some x.id
      rw [hid, Option.some.inj h2]
    · show get_state s "active_session_id" = some sess.id
      rw [hg, hid]
    · show get_state s "active_project_id" = some sess.project_id
      exact hgp
    · intro hn
      exact Option.noConfusion hn
    · intro sid' hs
      have he : sid' = sess.id := (Option.some.inj hs).symm
      exact ⟨sess, hmem, he.symm, hopen2, rfl⟩

theorem get_active_session_spec (s : Store) (sess : Session)
    (h : get_active_session s = some sess) :
    sess ∈ s.sessions ∧ sess.end_time = none ∧
    get_state s "active_session_id" = some sess.id := by
  unfold get_active_session at h
  cases hg : get_state s "active_session_id" with
  | none =>
    rw [hg] at h
    cases h
  | some sid =>
    rw [hg] at h
    cases hfind : s.sessions.find? (fun x => x.id == sid && x.end_time.isNone) with
    | none => simp [hfind] at h
    | some row =>
      simp only [hfind] at h
      by_cases hany : (s.projects.any fun p => p.id == row.project_id) = true
      · rw [if_pos hany] at h
        have hrs : row = sess := Option.some.inj h
        have hpred := List.find?_some hfind
        simp only [Bool.and_eq_true, beq_iff_eq] at hpred
        refine ⟨?_, ?_, ?_⟩
        · rw [← hrs]
          exact List.mem_of_find?_eq_some hfind
        · rw [← hrs]
          exact Option.isNone_iff_eq_none.mp hpred.2
        · rw [← hrs, hpred.1]
      · rw [if_neg hany] at h
        cases h

/-- C7: the AppState pointer never surfaces a closed session: with no
pointer set `get_active_session` returns none; whenever it returns a
session, that session is a stored open row that the pointer designates;
and starting from a coherent store, after any sequence of timer
operations a set pointer always designates an open session row. -/
theorem C7_active_pointer (s : Store) (h : StoreCoherent s) :
    (get_state s "active_session_id" = none → get_active_session s = none) ∧
    (∀ sess, get_active_session s = some sess →
      sess ∈ s.sessions ∧ sess.end_time = none ∧
      get_state s "active_session_id" = some sess.id) ∧
    ∀ ops sid,
      get_state (runOps (TimeTracker.init s) ops).conn "active_session_id" = some sid →
      ∃ sess ∈ (runOps (TimeTracker.init s) ops).conn.sessions,
        sess.id = sid ∧ sess.end_time = none := by
  refine ⟨?_, ?_, ?_⟩
  · intro hg
    unfold get_active_session
    rw [hg]
  · intro sess hga
    exact get_active_session_spec s sess hga
  · intro ops sid hg
    have hc := runOps_coherent ops _ (init_coherent s h)
    rw [hc.2.1] at hg
    obtain ⟨sess, hmem, hid, hopen, _⟩ := hc.2.2.2.2 sid hg
    exact ⟨sess, hmem, hid, hopen⟩

/-- C7 witness: after a start operation on the recovered store, the
pointer designates the newly opened session (id 4). -/
theorem C7_active_pointer_witness :
    ∃ sess ∈ (runOps (TimeTracker.init storeCrashed) [Op.start 7 100]).conn.sessions,
      sess.id = 4 ∧ sess.end_time = none :=
  (C7_active_pointer storeCrashed (by decide)).2.2 [Op.start 7 100] 4 (by decide)

/-- C10: starting from a coherent store, after construction and after
every sequence of timer operations, the tracker's in-memory active
session id and active project id equal the store's AppState pointer
values, and `is_running` holds exactly when the pointer is set. -/
theorem C10_memory_store (s : Store) (h : StoreCoherent s) (ops : List Op) :
    (runOps (TimeTracker.init s) ops).active_session_id
      = get_state (runOps (TimeTracker.init s) ops).conn "active_session_id" ∧
    (runOps (TimeTracker.init s) ops).active_project_id
      = get_state (runOps (TimeTracker.init s) ops).conn "active_project_id" ∧
    ((runOps (TimeTracker.init s) ops).is_running = true ↔
      (get_state (runOps (TimeTracker.init s) ops).conn "active_session_id").isSome = true) := by
  have hc := runOps_coherent ops _ (init_coherent s h)
  refine ⟨hc.2.1.symm, hc.2.2.1.symm, ?_⟩
  rw [hc.2.1]
  exact Iff.rfl

/-- C10 witness: recovery then stop on the crashed store — memory and
pointer agree (both cleared). -/
theorem C10_memory_store_witness :
    (runOps (TimeTracker.init storeCrashed) [Op.stop 100]).active_session_id
      = get_state (runOps (TimeTracker.init storeCrashed) [Op.stop 100]).conn
          "active_session_id" :=
  (C10_memory_store storeCrashed (by decide) [Op.stop 100]).1
